import Mathlib

/-!
Verification of the Code_Reviewer repository (backend/app.py and
backend/gemini_client.py) against its natural-language specification.

The Python sources are shallowly embedded below:
- Python `str` becomes `String` / `List Char`;
- `str.strip()` becomes `pyStrip` (dropping leading/trailing whitespace);
- the two `re.sub` fence-stripping calls become `stripLeadingFence` and
  `stripTrailingFence`, modelling exactly the regexes `^```[a-zA-Z]*\n?`
  and `` ```$ `` (the latter matches at end of string or just before a
  final newline, as Python's `$` does);
- `json.loads` becomes `parseJsonStr` (a strict JSON parser with fuel;
  the fuel is generous enough that it never runs out on any input, since
  every recursive step consumes at least one character or one list item);
- `json.dumps` becomes `pyJsonDumps` (default separators `", "` and
  `": "`, `ensure_ascii=True` escaping);
- fallible Python code becomes `Except String _` (the `String` is the
  exception message); code reading the environment or the network is
  taken as an explicit parameter quantified over all behaviours.
-/

/-! ### Character helpers -/

/-- The backtick character (written via its code point). -/
def backtick : Char := Char.ofNat 96

/-- The opening-brace character (written via its code point). -/
def lbrace : Char := Char.ofNat 123

/-- The closing-brace character (written via its code point). -/
def rbrace : Char := Char.ofNat 125

/-- Whitespace stripped by Python's `str.strip()` (the ASCII whitespace
characters; Python also strips other Unicode whitespace, which does not
matter for any claim considered here). -/
def isPySpace (c : Char) : Bool :=
  c = ' ' || c = '\t' || c = '\n' || c = '\r' || c = '\x0b' || c = '\x0c'

/-- ASCII letters, as matched by the regex class `[a-zA-Z]`. -/
def isAsciiAlpha (c : Char) : Bool :=
  ('a' ≤ c && c ≤ 'z') || ('A' ≤ c && c ≤ 'Z')

/-- JSON whitespace as skipped by Python's `json` module: space, tab,
newline, carriage return. -/
def isWsCh (c : Char) : Bool :=
  c = ' ' || c = '\t' || c = '\n' || c = '\r'

/-- ASCII decimal digit. -/
def isDigitCh (c : Char) : Bool := '0' ≤ c && c ≤ '9'

/-- ASCII digit 1-9. -/
def isDigit19 (c : Char) : Bool := '1' ≤ c && c ≤ '9'

/-- ASCII hexadecimal digit. -/
def isHexDigit (c : Char) : Bool :=
  ('0' ≤ c && c ≤ '9') || ('a' ≤ c && c ≤ 'f') || ('A' ≤ c && c ≤ 'F')

/-- Lowercase hexadecimal digit for a nibble value below 16. -/
def nibble (n : Nat) : Char :=
  if n < 10 then Char.ofNat (48 + n) else Char.ofNat (87 + n)

/-- Four lowercase hex digits of a value below 0x10000, as produced by
Python's `json.dumps` for a `\uXXXX` escape. -/
def hex4 (n : Nat) : List Char :=
  [nibble (n / 4096 % 16), nibble (n / 256 % 16), nibble (n / 16 % 16), nibble (n % 16)]

/-- The single-character escapes accepted after a backslash by Python's
`json` string scanner. -/
def isSimpleEscape (c : Char) : Bool :=
  c = '"' || c = '\\' || c = '/' || c = 'b' || c = 'f' || c = 'n' || c = 'r' || c = 't'

/-! ### Python `str.strip()` -/

/-- `str.strip()` on a character list: drop leading and trailing
whitespace. -/
def pyStripList (l : List Char) : List Char :=
  ((l.dropWhile isPySpace).reverse.dropWhile isPySpace).reverse

/-- `str.strip()` on a `String`. -/
def pyStrip (s : String) : String := String.mk (pyStripList s.data)

/-! ### The two fence-stripping regex substitutions -/

/-- `re.sub(r"^```[a-zA-Z]*\n?", "", s)`: if the text starts with three
backticks, remove them together with the following maximal run of ASCII
letters and one optional newline; otherwise leave the text unchanged. -/
def stripLeadingFence (l : List Char) : List Char :=
  match l with
  | a :: b :: c :: rest =>
    if a = backtick ∧ b = backtick ∧ c = backtick then
      match rest.dropWhile isAsciiAlpha with
      | x :: r2 => if x = '\n' then r2 else x :: r2
      | [] => []
    else l
  | _ => l

/-- `re.sub(r"```$", "", s)`: Python's `$` matches at the end of the
string or just before a terminating newline, so the substitution removes
a trailing `` ``` `` either at the very end or immediately before a final
newline; otherwise the text is unchanged. -/
def stripTrailingFence (l : List Char) : List Char :=
  match l.reverse with
  | a :: b :: c :: rest =>
    if a = backtick ∧ b = backtick ∧ c = backtick then rest.reverse
    else if a = '\n' ∧ b = backtick ∧ c = backtick then
      match rest with
      | d :: rest2 => if d = backtick then rest2.reverse ++ ['\n'] else l
      | [] => l
    else l
  | _ => l

/-! ### Python `find` / `rfind` and slicing -/

/-- Index of the first occurrence of a character (Python `str.find`,
with `none` for `-1`). -/
def findIdxCh (l : List Char) (c : Char) : Option Nat :=
  match l with
  | [] => none
  | x :: xs =>
    if x = c then some 0
    else (findIdxCh xs c).map (· + 1)

/-- Index of the last occurrence of a character (Python `str.rfind`,
with `none` for `-1`). -/
def rfindIdxCh (l : List Char) (c : Char) : Option Nat :=
  match findIdxCh l.reverse c with
  | some k => some (l.length - 1 - k)
  | none => none

/-- Python slice `l[a : b+1]` (inclusive of index `b`). -/
def sliceIncl (l : List Char) (a b : Nat) : List Char :=
  (l.drop a).take (b + 1 - a)

/-! ### JSON values and the embedding of `json.loads` -/

/-- Parsed JSON values. Number lexemes and the raw (still escaped)
contents of string literals are kept as text: no claim inspects the
numeric value or the decoded string of a parsed document. -/
inductive Json where
  | null
  | bool (b : Bool)
  | num (lexeme : String)
  | str (s : String)
  | arr (elems : List Json)
  | obj (members : List (String × Json))

/-- Drop leading JSON whitespace. -/
def skipWs (l : List Char) : List Char :=
  match l with
  | [] => []
  | c :: rest => if isWsCh c then skipWs rest else c :: rest

/-- Scan the body of a JSON string literal after the opening quote,
with Python's strict rules: raw control characters below 0x20 are
rejected, a backslash must introduce one of the simple escapes or a
`\uXXXX` escape with four hex digits. Returns the raw scanned content
and the remaining input after the closing quote. -/
def parseStringBody (l : List Char) : Option (List Char × List Char) :=
  match l with
  | [] => none
  | c :: rest =>
    if c = '"' then some ([], rest)
    else if c = '\\' then
      match rest with
      | [] => none
      | e :: rest2 =>
        if e = 'u' then
          match rest2 with
          | a :: b :: c2 :: d :: rest3 =>
            if isHexDigit a ∧ isHexDigit b ∧ isHexDigit c2 ∧ isHexDigit d then
              (parseStringBody rest3).map (fun p => (c :: e :: a :: b :: c2 :: d :: p.1, p.2))
            else none
          | _ => none
        else if isSimpleEscape e then
          (parseStringBody rest2).map (fun p => (c :: e :: p.1, p.2))
        else none
    else if 0x20 ≤ c.toNat then
      (parseStringBody rest).map (fun p => (c :: p.1, p.2))
    else none

/-- Maximal run of decimal digits and the rest. -/
def digitSpan (l : List Char) : List Char × List Char :=
  (l.takeWhile isDigitCh, l.dropWhile isDigitCh)

/-- Integer part of Python's JSON number regex `(-?(?:0|[1-9]\d*))`
(after the optional sign): either a single `0` or a nonzero digit
followed by digits. -/
def parseIntPart (l : List Char) : Option (List Char × List Char) :=
  match l with
  | [] => none
  | c :: r =>
    if c = '0' then some (['0'], r)
    else if isDigit19 c then
      let s := digitSpan r
      some (c :: s.1, s.2)
    else none

/-- Optional fraction part `(\.\d+)?`; returns the matched lexeme part
(possibly empty) and the rest. -/
def parseFracPart (l : List Char) : List Char × List Char :=
  match l with
  | c :: r =>
    if c = '.' then
      match digitSpan r with
      | ([], _) => ([], c :: r)
      | (d, r2) => (c :: d, r2)
    else ([], c :: r)
  | [] => ([], [])

/-- Optional exponent part `([eE][-+]?\d+)?`; returns the matched lexeme
part (possibly empty) and the rest. -/
def parseExpPart (l : List Char) : List Char × List Char :=
  match l with
  | c :: r =>
    if c = 'e' ∨ c = 'E' then
      match r with
      | s :: r1 =>
        if s = '+' ∨ s = '-' then
          match digitSpan r1 with
          | ([], _) => ([], c :: r)
          | (d, r2) => (c :: s :: d, r2)
        else
          match digitSpan (s :: r1) with
          | ([], _) => ([], c :: r)
          | (d, r2) => (c :: d, r2)
      | [] => ([], c :: r)
    else ([], c :: r)
  | [] => ([], [])

/-- A JSON number per Python's `NUMBER_RE`; returns the lexeme and the
rest of the input. -/
def parseNumber (l : List Char) : Option (List Char × List Char) :=
  match l with
  | [] => none
  | c :: r =>
    if c = '-' then
      match parseIntPart r with
      | some (ip, r1) =>
        let f := parseFracPart r1
        let e := parseExpPart f.2
        some (c :: ip ++ f.1 ++ e.1, e.2)
      | none => none
    else
      match parseIntPart (c :: r) with
      | some (ip, r1) =>
        let f := parseFracPart r1
        let e := parseExpPart f.2
        some (ip ++ f.1 ++ e.1, e.2)
      | none => none

mutual

/-- One JSON value, in the style of Python's `json` scanner: skip
whitespace, then dispatch on the first character (object, array, string,
`null`, `true`, `false`, the Python extras `NaN`/`Infinity`/`-Infinity`,
or a number). The fuel argument only bounds recursion depth; each
recursive call consumes input, so the generous fuel used by
`parseJsonStr` never runs out. -/
def parseValue : Nat → List Char → Option (Json × List Char)
  | 0, _ => none
  | f + 1, cs =>
    match skipWs cs with
    | [] => none
    | c :: rest =>
      if c = lbrace then parseMembersFirst f rest
      else if c = '[' then parseElemsFirst f rest
      else if c = '"' then
        (parseStringBody rest).map (fun p => (Json.str (String.mk p.1), p.2))
      else if c = 'n' then
        match rest with
        | 'u' :: 'l' :: 'l' :: r => some (Json.null, r)
        | _ => none
      else if c = 't' then
        match rest with
        | 'r' :: 'u' :: 'e' :: r => some (Json.bool true, r)
        | _ => none
      else if c = 'f' then
        match rest with
        | 'a' :: 'l' :: 's' :: 'e' :: r => some (Json.bool false, r)
        | _ => none
      else if c = 'N' then
        match rest with
        | 'a' :: 'N' :: r => some (Json.num "NaN", r)
        | _ => none
      else if c = 'I' then
        match rest with
        | 'n' :: 'f' :: 'i' :: 'n' :: 'i' :: 't' :: 'y' :: r => some (Json.num "Infinity", r)
        | _ => none
      else if c = '-' then
        match rest with
        | 'I' :: 'n' :: 'f' :: 'i' :: 'n' :: 'i' :: 't' :: 'y' :: r =>
          some (Json.num "-Infinity", r)
        | _ => (parseNumber (c :: rest)).map (fun p => (Json.num (String.mk p.1), p.2))
      else (parseNumber (c :: rest)).map (fun p => (Json.num (String.mk p.1), p.2))

/-- The inside of an array after `[`: either an immediate `]`, or a
first value followed by the comma-separated tail. -/
def parseElemsFirst : Nat → List Char → Option (Json × List Char)
  | 0, _ => none
  | f + 1, cs =>
    match skipWs cs with
    | [] => none
    | c :: rest =>
      if c = ']' then some (Json.arr [], rest)
      else
        match parseValue f (c :: rest) with
        | some (v, r) =>
          (parseElemsRest f r).map (fun p => (Json.arr (v :: p.1), p.2))
        | none => none

/-- The tail of an array: `]` closes it, `,` is followed by another
value. -/
def parseElemsRest : Nat → List Char → Option (List Json × List Char)
  | 0, _ => none
  | f + 1, cs =>
    match skipWs cs with
    | [] => none
    | c :: rest =>
      if c = ']' then some ([], rest)
      else if c = ',' then
        match parseValue f rest with
        | some (v, r) => (parseElemsRest f r).map (fun p => (v :: p.1, p.2))
        | none => none
      else none

/-- The inside of an object after the opening brace: either an immediate
closing brace, or a first `"key": value` member followed by the
comma-separated tail. -/
def parseMembersFirst : Nat → List Char → Option (Json × List Char)
  | 0, _ => none
  | f + 1, cs =>
    match skipWs cs with
    | [] => none
    | c :: rest =>
      if c = rbrace then some (Json.obj [], rest)
      else if c = '"' then
        match parseStringBody rest with
        | some (k, r1) =>
          match skipWs r1 with
          | ':' :: r2 =>
            match parseValue f r2 with
            | some (v, r3) =>
              (parseMembersRest f r3).map
                (fun p => (Json.obj ((String.mk k, v) :: p.1), p.2))
            | none => none
          | _ => none
        | none => none
      else none

/-- The tail of an object: a closing brace ends it, `,` is followed by
another `"key": value` member. -/
def parseMembersRest : Nat → List Char → Option (List (String × Json) × List Char)
  | 0, _ => none
  | f + 1, cs =>
    match skipWs cs with
    | [] => none
    | c :: rest =>
      if c = rbrace then some ([], rest)
      else if c = ',' then
        match skipWs rest with
        | c1 :: r0 =>
          if c1 = '"' then
            match parseStringBody r0 with
            | some (k, r1) =>
              match skipWs r1 with
              | ':' :: r2 =>
                match parseValue f r2 with
                | some (v, r3) =>
                  (parseMembersRest f r3).map (fun p => ((String.mk k, v) :: p.1, p.2))
                | none => none
              | _ => none
            | none => none
          else none
        | [] => none
      else none

end

/-- Embedding of `json.loads`: parse one JSON document and require that
only whitespace follows it; `none` models a raised `JSONDecodeError`.
The fuel `2 * length + 64` exceeds the number of recursion steps
possible on the input, so it acts as no bound at all. -/
def parseJsonStr (s : String) : Option Json :=
  match parseValue (2 * s.length + 64) s.data with
  | some (v, rest) => if skipWs rest = [] then some v else none
  | none => none

/-- Whether `json.loads` succeeds on the text. -/
def jsonValid (s : String) : Bool := (parseJsonStr s).isSome

/-! ### The two sanitizer variants

`clean_json_output` is `app.py` lines 21-31; `_clean_to_json_str` is
`gemini_client.py` lines 93-116. Both first strip surrounding
whitespace and apply the two fence regexes; `fenceClean` is that shared
prefix (the two sources contain the identical statements). -/

/-- `raw.strip()` followed by the two `re.sub` fence removals, as a
character list. -/
def fenceClean (s : String) : List Char :=
  stripTrailingFence (stripLeadingFence (pyStripList s.data))

/-- `app.py` `clean_json_output`: empty input gives the literal `{}`;
otherwise strip whitespace and fences, and if a first `{` and a last `}`
both exist (in any order), return the inclusive slice between them;
otherwise return the cleaned text unchanged. -/
def clean_json_output (raw : String) : String :=
  if raw = "" then "\x7b\x7d"
  else
    match findIdxCh (fenceClean raw) lbrace, rfindIdxCh (fenceClean raw) rbrace with
    | some i, some j => String.mk (sliceIncl (fenceClean raw) i j)
    | _, _ => String.mk (fenceClean raw)

/-- `gemini_client.py` `_clean_to_json_str`: empty input gives `none`;
otherwise strip whitespace and fences; if a first `{` and a last `}`
exist with the `}` strictly after the `{`, take the inclusive slice as
candidate and return it exactly when `json.loads` accepts it; in every
other case return `none`. -/
def _clean_to_json_str (text : String) : Option String :=
  if text = "" then none
  else
    match findIdxCh (fenceClean text) lbrace, rfindIdxCh (fenceClean text) rbrace with
    | some i, some j =>
      if i < j then
        if jsonValid (String.mk (sliceIncl (fenceClean text) i j)) then
          some (String.mk (sliceIncl (fenceClean text) i j))
        else none
      else none
    | _, _ => none

/-! ### Embedding of `json.dumps` (default options, `ensure_ascii=True`) -/

/-- Escape of one character in a dumped JSON string, following
`json.encoder.py_encode_basestring_ascii`: the named short escapes, raw
printable ASCII, `\uXXXX` for other characters below 0x10000, and a
surrogate pair of `\uXXXX` escapes above. -/
def escapeChar (c : Char) : List Char :=
  if c = '"' then ['\\', '"']
  else if c = '\\' then ['\\', '\\']
  else if c = '\x08' then ['\\', 'b']
  else if c = '\x0c' then ['\\', 'f']
  else if c = '\n' then ['\\', 'n']
  else if c = '\r' then ['\\', 'r']
  else if c = '\t' then ['\\', 't']
  else if 0x20 ≤ c.toNat ∧ c.toNat ≤ 0x7e then [c]
  else if c.toNat < 0x10000 then '\\' :: 'u' :: hex4 c.toNat
  else
    '\\' :: 'u' :: hex4 (0xd800 + (c.toNat - 0x10000) / 0x400) ++
      '\\' :: 'u' :: hex4 (0xdc00 + (c.toNat - 0x10000) % 0x400)

/-- Escape of a whole character list. -/
def escChars : List Char → List Char
  | [] => []
  | c :: cs => escapeChar c ++ escChars cs

mutual

/-- Characters of `json.dumps` of a value (default separators `", "`
and `": "`). -/
def dumpChars : Json → List Char
  | Json.null => ['n', 'u', 'l', 'l']
  | Json.bool true => ['t', 'r', 'u', 'e']
  | Json.bool false => ['f', 'a', 'l', 's', 'e']
  | Json.num lx => lx.data
  | Json.str s => '"' :: (escChars s.data ++ ['"'])
  | Json.arr xs => '[' :: (dumpElems xs ++ [']'])
  | Json.obj fs => lbrace :: (dumpMembers fs ++ [rbrace])

/-- Elements of a dumped array. -/
def dumpElems : List Json → List Char
  | [] => []
  | x :: xs => dumpChars x ++ sepElems xs

/-- Tail elements of a dumped array, each preceded by `", "`. -/
def sepElems : List Json → List Char
  | [] => []
  | x :: xs => ',' :: ' ' :: (dumpChars x ++ sepElems xs)

/-- Members of a dumped object. -/
def dumpMembers : List (String × Json) → List Char
  | [] => []
  | (k, v) :: fs => '"' :: (escChars k.data ++ '"' :: ':' :: ' ' :: (dumpChars v ++ sepMembers fs))

/-- Tail members of a dumped object, each preceded by `", "`. -/
def sepMembers : List (String × Json) → List Char
  | [] => []
  | (k, v) :: fs =>
    ',' :: ' ' :: '"' :: (escChars k.data ++ '"' :: ':' :: ' ' :: (dumpChars v ++ sepMembers fs))

end

/-- `json.dumps` as a `String`. -/
def pyJsonDumps (j : Json) : String := String.mk (dumpChars j)

mutual

/-- Fuel bound used to run the parser over a dumped document; counts
values and list items, never the contents of strings. -/
def jsize : Json → Nat
  | Json.null => 1
  | Json.bool _ => 1
  | Json.num _ => 1
  | Json.str _ => 1
  | Json.arr xs => 2 + jsizeL xs
  | Json.obj fs => 2 + jsizeM fs

/-- Fuel bound for an element list. -/
def jsizeL : List Json → Nat
  | [] => 1
  | x :: xs => 2 + jsize x + jsizeL xs

/-- Fuel bound for a member list. -/
def jsizeM : List (String × Json) → Nat
  | [] => 1
  | (_, v) :: fs => 2 + jsize v + jsizeM fs

end

mutual

/-- Whether a value contains no number lexeme (the dumped fallback
objects contain only strings, arrays and objects). -/
def numFree : Json → Bool
  | Json.null => true
  | Json.bool _ => true
  | Json.num _ => false
  | Json.str _ => true
  | Json.arr xs => numFreeL xs
  | Json.obj fs => numFreeM fs

/-- `numFree` on an element list. -/
def numFreeL : List Json → Bool
  | [] => true
  | x :: xs => numFree x && numFreeL xs

/-- `numFree` on a member list. -/
def numFreeM : List (String × Json) → Bool
  | [] => true
  | (_, v) :: fs => numFree v && numFreeM fs

end

/-- Field lookup in an object value (used only to state properties of
the fallback payloads). -/
def jsonLookup (j : Json) (k : String) : Option Json :=
  match j with
  | Json.obj fs => lookupMember fs k
  | _ => none
where
  lookupMember : List (String × Json) → String → Option Json
  | [], _ => none
  | (k', v) :: fs, k => if k' = k then some v else lookupMember fs k

/-! ### Model of `gemini_client.py` `review_code`

`get_client()` reads the environment and may raise; its outcome is the
`client` parameter. The provider call `client.models.generate_content`
and the attribute probing of its response happen inside the `try` block;
the `provider` parameter covers every such behaviour: an exception with
some message, or a response object. A response object is modelled by the
attributes the code probes: an optional `text`, and a `candidates` list
whose first element may have a `content` with a `parts` list whose first
element may have a `text` attribute (a missing attribute and an attribute
holding `None` lead to the same extracted text, so both are `none`). -/

/-- One element of `content.parts`. -/
structure GenPart where
  text : Option String

/-- A `candidate.content` value. -/
structure GenContent where
  parts : List GenPart

/-- One element of `response.candidates`. -/
structure GenCandidate where
  content : Option GenContent

/-- The provider response object, as probed by lines 147-157. -/
structure GenResponse where
  text : Option String
  candidates : List GenCandidate

/-- Lines 147-162: `getattr(response, "text", None)`, the fallback
descent into `candidates[0].content.parts[0].text` when that is missing
or empty, and the final `text or ""`. -/
def extract_text (response : GenResponse) : String :=
  let text := response.text
  let text :=
    if text.getD "" = "" then
      match response.candidates with
      | [] => text
      | candidate :: _ =>
        match candidate.content with
        | none => text
        | some content =>
          match content.parts with
          | [] => text
          | part :: _ =>
            match part.text with
            | none => text
            | some t => some t
    else text
  text.getD ""

/-- The fallback object of lines 169-176 (model returned no usable
JSON). -/
def fallback_json : Json :=
  Json.obj
    [("code_status", Json.str "Incorrect"),
     ("issues_found", Json.arr [Json.str "Model did not return valid JSON output."]),
     ("suggestions",
       Json.arr
         [Json.str "Re-run the review.",
          Json.str "Ensure the snippet is complete and includes required imports."])]

/-- The fallback object of lines 183-190 (the provider call raised an
exception with message `e`). -/
def error_json (e : String) : Json :=
  Json.obj
    [("code_status", Json.str "Incorrect"),
     ("issues_found", Json.arr [Json.str ("Model call failed: " ++ e)]),
     ("suggestions",
       Json.arr
         [Json.str "Check your GEMINI_API_KEY and internet connectivity.",
          Json.str "Ensure google-genai is installed (version 0.3.0)."])]

/-- `review_code` (lines 122-191). `get_client()` runs before the `try`
block, so its exception propagates; everything after it is covered by
the `try`, whose `except` returns the serialized `error_json`. The
`user_code` and `language_hint` arguments only enter the prompt sent to
the provider, whose behaviour is already quantified by `provider`. -/
def review_code (user_code : String) (language_hint : Option String)
    (client : Except String Unit) (provider : Except String GenResponse) :
    Except String String :=
  match client with
  | Except.error e => Except.error e
  | Except.ok _ =>
    match provider with
    | Except.error e => Except.ok (pyJsonDumps (error_json e))
    | Except.ok response =>
      match _clean_to_json_str (extract_text response) with
      | some json_str => Except.ok json_str
      | none => Except.ok (pyJsonDumps fallback_json)

/-! ### Model of `app.py` `api_review` -/

/-- Python values that can sit in the parsed request body under the
`code` key. -/
inductive PyVal where
  | str (s : String)
  | int (n : Int)
  | list (xs : List PyVal)
  | dict (fs : List (String × PyVal))

/-- An HTTP response: status code and JSON body. -/
structure HttpResp where
  status : Nat
  body : Json

/-- `api_review` (lines 34-50). `codeField` is `data.get("code")`
(`none` when the key is absent or the body was not a JSON object, in
which case `data` is `{}`); `review_result` is the outcome of the
`review_code(code, language)` call, covering both a returned string and
a raised exception (for example the missing-credential `RuntimeError`
from `get_client`). The returned `Bool` records whether the Model
Client was invoked. `.strip()` on a non-string `code` value raises an
`AttributeError` before the emptiness check and before the `try` block,
which escapes the handler (`Except.error`). -/
def api_review (codeField : Option PyVal) (review_result : Except String String) :
    Except String (HttpResp × Bool) :=
  match codeField.getD (PyVal.str "") with
  | PyVal.str s =>
    let code := pyStrip s
    if code = "" then
      Except.ok (⟨400, Json.obj [("error", Json.str "No code provided.")]⟩, false)
    else
      match review_result with
      | Except.error e => Except.ok (⟨500, Json.obj [("error", Json.str e)]⟩, true)
      | Except.ok raw =>
        match parseJsonStr (clean_json_output raw) with
        | some parsed => Except.ok (⟨200, parsed⟩, true)
        | none =>
          Except.ok
            (⟨200,
              Json.obj
                [("summary", Json.str "Gemini returned non-JSON. Showing raw."),
                 ("raw", Json.str raw)]⟩, true)
  | _ => Except.error "AttributeError: object has no attribute strip"

/-! ### Lemmas about the parser and the serializer -/

/-- Every nibble is escaped to a hex digit. -/
theorem isHexDigit_nibble : ∀ m : Nat, m < 16 → isHexDigit (nibble m) = true := by decide

/-- `skipWs` does nothing on a list whose head is not whitespace. -/
theorem skipWs_cons_neg {c : Char} (l : List Char) (h : isWsCh c = false) :
    skipWs (c :: l) = c :: l := by
  simp [skipWs, h]

/-- String scanner step: closing quote. -/
theorem psb_quote (t : List Char) : parseStringBody ('"' :: t) = some ([], t) := by
  rw [parseStringBody.eq_def]; simp

/-- String scanner step: a simple backslash escape. -/
theorem psb_escape (e : Char) (t : List Char) (hu : ¬e = 'u') (hs : isSimpleEscape e = true) :
    parseStringBody ('\\' :: e :: t) =
      (parseStringBody t).map (fun p => ('\\' :: e :: p.1, p.2)) := by
  rw [parseStringBody.eq_def]; simp [hu, hs]

/-- String scanner step: a `\uXXXX` escape with four hex digits. -/
theorem psb_u (a b c2 d : Char) (t : List Char) (ha : isHexDigit a = true)
    (hb : isHexDigit b = true) (hc : isHexDigit c2 = true) (hd : isHexDigit d = true) :
    parseStringBody ('\\' :: 'u' :: a :: b :: c2 :: d :: t) =
      (parseStringBody t).map (fun p => ('\\' :: 'u' :: a :: b :: c2 :: d :: p.1, p.2)) := by
  rw [parseStringBody.eq_def]; simp [ha, hb, hc, hd]

/-- String scanner step: an ordinary character at or above 0x20. -/
theorem psb_plain (c : Char) (t : List Char) (h1 : ¬c = '"') (h2 : ¬c = '\\')
    (h3 : 0x20 ≤ c.toNat) :
    parseStringBody (c :: t) = (parseStringBody t).map (fun p => (c :: p.1, p.2)) := by
  rw [parseStringBody.eq_def]; simp [h1, h2, h3]

/-- The scanner consumes the escape of one character and continues. -/
theorem parseStringBody_escapeChar (c : Char) (t : List Char) :
    parseStringBody (escapeChar c ++ t) =
      (parseStringBody t).map (fun p => (escapeChar c ++ p.1, p.2)) := by
  have hx : ∀ m : Nat, isHexDigit (nibble (m % 16)) = true := fun m =>
    isHexDigit_nibble _ (Nat.mod_lt _ (by norm_num))
  by_cases h1 : c = '"'
  · subst h1
    simpa [escapeChar] using psb_escape '\"' t (by decide) (by decide)
  by_cases h2 : c = '\\'
  · subst h2
    simpa [escapeChar] using psb_escape '\\' t (by decide) (by decide)
  by_cases h3 : c = '\x08'
  · subst h3
    simpa [escapeChar] using psb_escape 'b' t (by decide) (by decide)
  by_cases h4 : c = '\x0c'
  · subst h4
    simpa [escapeChar] using psb_escape 'f' t (by decide) (by decide)
  by_cases h5 : c = '\n'
  · subst h5
    simpa [escapeChar] using psb_escape 'n' t (by decide) (by decide)
  by_cases h6 : c = '\r'
  · subst h6
    simpa [escapeChar] using psb_escape 'r' t (by decide) (by decide)
  by_cases h7 : c = '\t'
  · subst h7
    simpa [escapeChar] using psb_escape 't' t (by decide) (by decide)
  by_cases h8 : 0x20 ≤ c.toNat ∧ c.toNat ≤ 0x7e
  · rw [escapeChar, if_neg h1, if_neg h2, if_neg h3, if_neg h4, if_neg h5, if_neg h6,
      if_neg h7, if_pos h8]
    simp [psb_plain c t h1 h2 h8.1]
  by_cases h9 : c.toNat < 0x10000
  · rw [escapeChar, if_neg h1, if_neg h2, if_neg h3, if_neg h4, if_neg h5, if_neg h6,
      if_neg h7, if_neg h8, if_pos h9]
    simp [hex4, psb_u _ _ _ _ _ (hx _) (hx _) (hx _) (hx _)]
  · rw [escapeChar, if_neg h1, if_neg h2, if_neg h3, if_neg h4, if_neg h5, if_neg h6,
      if_neg h7, if_neg h8, if_neg h9]
    simp [hex4, psb_u _ _ _ _ _ (hx _) (hx _) (hx _) (hx _), Option.map_map]
    rfl

/-- The scanner consumes a whole escaped string and continues. -/
theorem parseStringBody_escChars (cs : List Char) (r : List Char) :
    parseStringBody (escChars cs ++ r) =
      (parseStringBody r).map (fun p => (escChars cs ++ p.1, p.2)) := by
  induction cs with
  | nil => cases h : parseStringBody r <;> simp [escChars, h]
  | cons c cs ih =>
    rw [escChars, List.append_assoc, parseStringBody_escapeChar, ih]
    cases h : parseStringBody r <;> simp [h]

/-- The escaped body followed by the closing quote scans to the raw
escaped content. -/
theorem parseStringBody_escChars_closed (cs : List Char) (r : List Char) :
    parseStringBody (escChars cs ++ '"' :: r) = some (escChars cs, r) := by
  rw [parseStringBody_escChars, psb_quote]
  simp

/-- Every value needs at least one unit of fuel. -/
theorem jsize_pos (j : Json) : 1 ≤ jsize j := by
  cases j <;> simp [jsize] <;> omega

/-- Every element list needs at least one unit of fuel. -/
theorem jsizeL_pos (xs : List Json) : 1 ≤ jsizeL xs := by
  cases xs <;> simp [jsizeL] <;> omega

/-- Every member list needs at least one unit of fuel. -/
theorem jsizeM_pos (fs : List (String × Json)) : 1 ≤ jsizeM fs := by
  cases fs with
  | nil => simp [jsizeM]
  | cons kv fs => obtain ⟨k, v⟩ := kv; simp [jsizeM]; omega

/-- `skipWs` is idempotent. -/
theorem skipWs_idem (l : List Char) : skipWs (skipWs l) = skipWs l := by
  induction l with
  | nil => rfl
  | cons c t ih =>
    by_cases h : isWsCh c
    · simp [skipWs, h, ih]
    · simp [skipWs, h]

/-- `parseValue` first skips whitespace, so pre-skipping is harmless. -/
theorem parseValue_skipWs (f : Nat) (cs : List Char) :
    parseValue f cs = parseValue f (skipWs cs) := by
  cases f with
  | zero => rfl
  | succ f =>
    simp only [parseValue]
    rw [skipWs_idem]

/-- One leading whitespace character is ignored by `parseValue`. -/
theorem parseValue_cons_ws (f : Nat) (c : Char) (h : isWsCh c = true) (X : List Char) :
    parseValue f (c :: X) = parseValue f X := by
  rw [parseValue_skipWs]
  conv_rhs => rw [parseValue_skipWs]
  simp [skipWs, h]

/-- The dump of a number-free value starts with a non-whitespace
character that is not `]` (so the array parsers dispatch correctly on
it). -/
theorem dumpChars_head (j : Json) (h : numFree j = true) :
    ∃ c t, dumpChars j = c :: t ∧ isWsCh c = false ∧ ¬c = ']' := by
  cases j with
  | null => exact ⟨'n', ['u', 'l', 'l'], by simp [dumpChars], by decide, by decide⟩
  | bool b =>
    cases b with
    | true => exact ⟨'t', ['r', 'u', 'e'], by simp [dumpChars], by decide, by decide⟩
    | false => exact ⟨'f', ['a', 'l', 's', 'e'], by simp [dumpChars], by decide, by decide⟩
  | num lx => simp [numFree] at h
  | str s => exact ⟨'"', escChars s.data ++ ['"'], by simp [dumpChars], by decide, by decide⟩
  | arr xs => exact ⟨'[', dumpElems xs ++ [']'], by simp [dumpChars], by decide, by decide⟩
  | obj fs => exact ⟨lbrace, dumpMembers fs ++ [rbrace], by simp [dumpChars], by decide, by decide⟩

/-- Round trip: the parser accepts the dump of any number-free value,
consuming exactly the dumped characters, provided the fuel covers the
value's `jsize`. Stated simultaneously for all five mutual parsing
functions and proved by strong induction on the fuel. -/
theorem parse_dump (f : Nat) :
    (∀ j r, numFree j = true → jsize j ≤ f →
      ∃ v, parseValue f (dumpChars j ++ r) = some (v, r)) ∧
    (∀ xs r, numFreeL xs = true → 1 + jsizeL xs ≤ f →
      ∃ v, parseElemsFirst f (dumpElems xs ++ ']' :: r) = some (v, r)) ∧
    (∀ xs r, numFreeL xs = true → jsizeL xs ≤ f →
      ∃ vs, parseElemsRest f (sepElems xs ++ ']' :: r) = some (vs, r)) ∧
    (∀ fs r, numFreeM fs = true → 1 + jsizeM fs ≤ f →
      ∃ v, parseMembersFirst f (dumpMembers fs ++ rbrace :: r) = some (v, r)) ∧
    (∀ fs r, numFreeM fs = true → jsizeM fs ≤ f →
      ∃ vs, parseMembersRest f (sepMembers fs ++ rbrace :: r) = some (vs, r)) := by
  induction f using Nat.strong_induction_on with
  | _ f IH =>
  refine ⟨?_, ?_, ?_, ?_, ?_⟩
  · intro j r hnf hsz
    cases f with
    | zero => exact absurd hsz (by have := jsize_pos j; omega)
    | succ f =>
      cases j with
      | null => exact ⟨Json.null, by simp only [dumpChars]; rfl⟩
      | bool b =>
        cases b with
        | true => exact ⟨Json.bool true, by simp only [dumpChars]; rfl⟩
        | false => exact ⟨Json.bool false, by simp only [dumpChars]; rfl⟩
      | num lx => simp [numFree] at hnf
      | str s =>
        refine ⟨Json.str (String.mk (escChars s.data)), ?_⟩
        simp only [dumpChars, List.cons_append, List.append_assoc, List.singleton_append]
        rw [parseValue.eq_def]
        simp [skipWs, isWsCh, lbrace, parseStringBody_escChars_closed]
      | arr xs =>
        simp only [numFree] at hnf
        simp only [jsize] at hsz
        obtain ⟨-, hEF, -, -, -⟩ := IH f (Nat.lt_succ_self f)
        obtain ⟨v, hv⟩ := hEF xs r hnf (by omega)
        refine ⟨v, ?_⟩
        simp only [dumpChars, List.cons_append, List.append_assoc, List.singleton_append]
        rw [parseValue.eq_def]
        simp [skipWs, isWsCh, lbrace, hv]
      | obj fs =>
        simp only [numFree] at hnf
        simp only [jsize] at hsz
        obtain ⟨-, -, -, hMF, -⟩ := IH f (Nat.lt_succ_self f)
        obtain ⟨v, hv⟩ := hMF fs r hnf (by omega)
        refine ⟨v, ?_⟩
        simp only [dumpChars, List.cons_append, List.append_assoc, List.singleton_append]
        simp only [parseValue]
        rw [skipWs_cons_neg _ (by decide)]
        simp [hv]
  · intro xs r hnf hsz
    cases f with
    | zero => exact absurd hsz (by have := jsizeL_pos xs; omega)
    | succ f =>
      cases xs with
      | nil =>
        refine ⟨Json.arr [], ?_⟩
        rw [parseElemsFirst.eq_def]
        simp [dumpElems, skipWs, isWsCh]
      | cons x xs =>
        simp only [numFreeL, Bool.and_eq_true] at hnf
        simp only [jsizeL] at hsz
        obtain ⟨hSV, -, hER, -, -⟩ := IH f (Nat.lt_succ_self f)
        obtain ⟨c, t, hct, hws, hbr⟩ := dumpChars_head x hnf.1
        obtain ⟨v, hv⟩ := hSV x (sepElems xs ++ ']' :: r) hnf.1 (by have := jsizeL_pos xs; omega)
        obtain ⟨vs, hvs⟩ := hER xs r hnf.2 (by have := jsize_pos x; omega)
        refine ⟨Json.arr (v :: vs), ?_⟩
        rw [parseElemsFirst.eq_def]
        simp only [dumpElems, List.append_assoc, hct, List.cons_append]
        rw [skipWs_cons_neg _ hws]
        simp only [if_neg hbr]
        rw [← List.cons_append, ← hct, hv]
        simp [hvs]
  · intro xs r hnf hsz
    cases f with
    | zero => exact absurd hsz (by have := jsizeL_pos xs; omega)
    | succ f =>
      cases xs with
      | nil =>
        refine ⟨[], ?_⟩
        rw [parseElemsRest.eq_def]
        simp [sepElems, skipWs, isWsCh]
      | cons x xs =>
        simp only [numFreeL, Bool.and_eq_true] at hnf
        simp only [jsizeL] at hsz
        obtain ⟨hSV, -, hER, -, -⟩ := IH f (Nat.lt_succ_self f)
        obtain ⟨v, hv⟩ := hSV x (sepElems xs ++ ']' :: r) hnf.1 (by have := jsizeL_pos xs; omega)
        obtain ⟨vs, hvs⟩ := hER xs r hnf.2 (by have := jsize_pos x; omega)
        refine ⟨v :: vs, ?_⟩
        rw [parseElemsRest.eq_def]
        simp only [sepElems, List.append_assoc, List.cons_append]
        rw [skipWs_cons_neg _ (by decide)]
        simp only [show ¬(',' = ']') from by decide, if_neg, if_pos rfl]
        rw [parseValue_cons_ws f ' ' (by decide), hv]
        simp [hvs]
  · intro fs r hnf hsz
    cases f with
    | zero => exact absurd hsz (by have := jsizeM_pos fs; omega)
    | succ f =>
      cases fs with
      | nil =>
        refine ⟨Json.obj [], ?_⟩
        simp only [parseMembersFirst, dumpMembers, List.nil_append]
        rw [skipWs_cons_neg _ (by decide)]
        simp
      | cons kv fs =>
        obtain ⟨k, v⟩ := kv
        simp only [numFreeM, Bool.and_eq_true] at hnf
        simp only [jsizeM] at hsz
        obtain ⟨hSV, -, -, -, hMR⟩ := IH f (Nat.lt_succ_self f)
        obtain ⟨w, hw⟩ := hSV v (sepMembers fs ++ rbrace :: r) hnf.1
          (by have := jsizeM_pos fs; omega)
        obtain ⟨vs, hvs⟩ := hMR fs r hnf.2 (by have := jsize_pos v; omega)
        refine ⟨Json.obj ((String.mk (escChars k.data), w) :: vs), ?_⟩
        simp only [parseMembersFirst]
        simp only [dumpMembers, List.append_assoc, List.cons_append]
        rw [skipWs_cons_neg _ (by decide)]
        simp +decide [skipWs, isWsCh, parseStringBody_escChars_closed,
          parseValue_cons_ws f ' ' (by decide), hw, hvs]
  · intro fs r hnf hsz
    cases f with
    | zero => exact absurd hsz (by have := jsizeM_pos fs; omega)
    | succ f =>
      cases fs with
      | nil =>
        refine ⟨[], ?_⟩
        simp only [parseMembersRest, sepMembers, List.nil_append]
        rw [skipWs_cons_neg _ (by decide)]
        simp
      | cons kv fs =>
        obtain ⟨k, v⟩ := kv
        simp only [numFreeM, Bool.and_eq_true] at hnf
        simp only [jsizeM] at hsz
        obtain ⟨hSV, -, -, -, hMR⟩ := IH f (Nat.lt_succ_self f)
        obtain ⟨w, hw⟩ := hSV v (sepMembers fs ++ rbrace :: r) hnf.1
          (by have := jsizeM_pos fs; omega)
        obtain ⟨vs, hvs⟩ := hMR fs r hnf.2 (by have := jsize_pos v; omega)
        refine ⟨(String.mk (escChars k.data), w) :: vs, ?_⟩
        simp only [parseMembersRest]
        simp only [sepMembers, List.append_assoc, List.cons_append]
        rw [skipWs_cons_neg _ (by decide)]
        simp +decide [skipWs, isWsCh, parseStringBody_escChars_closed,
          parseValue_cons_ws f ' ' (by decide), hw, hvs]

/-- The dump of any number-free value of bounded `jsize` is accepted by
`json.loads` (the fuel `2 * length + 64` always covers a `jsize` of at
most 64). -/
theorem dumps_valid (j : Json) (hnf : numFree j = true) (hsz : jsize j ≤ 64) :
    jsonValid (pyJsonDumps j) = true := by
  obtain ⟨v, hv⟩ :=
    (parse_dump (2 * (pyJsonDumps j).length + 64)).1 j [] hnf (by omega)
  rw [List.append_nil] at hv
  have hd : (pyJsonDumps j).data = dumpChars j := rfl
  rw [jsonValid, parseJsonStr, hd, hv]
  rfl

/-- Whatever `_clean_to_json_str` returns was accepted by `json.loads`. -/
theorem clean_to_json_str_valid (t s : String) (h : _clean_to_json_str t = some s) :
    jsonValid s = true := by
  rw [_clean_to_json_str] at h
  split at h
  · exact absurd h (by simp)
  · split at h
    · split at h
      · split at h
        · cases h
          assumption
        · exact absurd h (by simp)
      · exact absurd h (by simp)
    · exact absurd h (by simp)

/-! ### Claims -/

/-- C1: for every input code string and language hint, and for every
behaviour of the provider call — any response object or any raised
exception — `review_code` returns (rather than raises) a string that
`json.loads` accepts, once the client has been constructed
(`client = Except.ok ()`). -/
theorem C1_review_code_always_json (user_code : String) (language_hint : Option String)
    (provider : Except String GenResponse) :
    ∃ s, review_code user_code language_hint (Except.ok ()) provider = Except.ok s ∧
      jsonValid s = true := by
  cases provider with
  | error e =>
    refine ⟨pyJsonDumps (error_json e), rfl, ?_⟩
    apply dumps_valid
    · simp [error_json, numFree, numFreeM, numFreeL]
    · simp [error_json, jsize, jsizeM, jsizeL]
  | ok response =>
    cases h : _clean_to_json_str (extract_text response) with
    | some s =>
      exact ⟨s, by simp [review_code, h], clean_to_json_str_valid _ _ h⟩
    | none =>
      refine ⟨pyJsonDumps fallback_json, by simp [review_code, h], ?_⟩
      apply dumps_valid
      · simp [fallback_json, numFree, numFreeM, numFreeL]
      · simp [fallback_json, jsize, jsizeM, jsizeL]

/-- C5: every exception of the provider call is caught, and
`review_code` returns the serialization of the fixed fallback object:
`code_status` is `"Incorrect"`, `issues_found` is a non-empty list whose
entry names the failure, and `suggestions` is a non-empty list. -/
theorem C5_provider_exception_fallback (user_code : String)
    (language_hint : Option String) (e : String) :
    review_code user_code language_hint (Except.ok ()) (Except.error e) =
      Except.ok (pyJsonDumps (error_json e)) ∧
    jsonLookup (error_json e) "code_status" = some (Json.str "Incorrect") ∧
    (∃ xs, jsonLookup (error_json e) "issues_found" = some (Json.arr xs) ∧ xs ≠ [] ∧
      Json.str ("Model call failed: " ++ e) ∈ xs) ∧
    (∃ ys, jsonLookup (error_json e) "suggestions" = some (Json.arr ys) ∧ ys ≠ []) := by
  refine ⟨rfl, ?_, ?_, ?_⟩
  · simp [jsonLookup, jsonLookup.lookupMember, error_json]
  · exact ⟨[Json.str ("Model call failed: " ++ e)],
      by simp [jsonLookup, jsonLookup.lookupMember, error_json], by simp, by simp⟩
  · exact ⟨[Json.str "Check your GEMINI_API_KEY and internet connectivity.",
      Json.str "Ensure google-genai is installed (version 0.3.0)."],
      by simp [jsonLookup, jsonLookup.lookupMember, error_json], by simp⟩

/-- C2: when the `code` field is absent, or is a string that is empty
after trimming, `api_review` answers 400 with exactly
`\x7b"error": "No code provided."\x7d` and the Model Client is not
invoked (the flag is `false` and the response does not depend on the
`review_result` parameter, which is arbitrary). -/
theorem C2_missing_or_blank_code (codeField : Option PyVal) (r : Except String String)
    (h : codeField = none ∨ ∃ s, codeField = some (PyVal.str s) ∧ pyStrip s = "") :
    api_review codeField r =
      Except.ok (⟨400, Json.obj [("error", Json.str "No code provided.")]⟩, false) := by
  rcases h with h | ⟨s, h, hs⟩
  · subst h; rfl
  · subst h; simp [api_review, hs]

/-- C2 witness: a whitespace-only `code` string hits the theorem. -/
theorem C2_missing_or_blank_code_witness :
    pyStrip "   " = "" ∧
    api_review (some (PyVal.str "   ")) (Except.ok "zzz") =
      Except.ok (⟨400, Json.obj [("error", Json.str "No code provided.")]⟩, false) :=
  ⟨by decide, C2_missing_or_blank_code (some (PyVal.str "   ")) (Except.ok "zzz")
    (Or.inr ⟨"   ", rfl, by decide⟩)⟩

/-- C6: when the `code` field is a non-blank string and the Model Client
returned a raw text whose sanitized form `json.loads` rejects,
`api_review` answers 200 (not an error status) with the summary object
carrying the unmodified raw text. -/
theorem C6_nonjson_soft_fail (s raw : String) (h1 : pyStrip s ≠ "")
    (h2 : parseJsonStr (clean_json_output raw) = none) :
    api_review (some (PyVal.str s)) (Except.ok raw) =
      Except.ok (⟨200,
        Json.obj [("summary", Json.str "Gemini returned non-JSON. Showing raw."),
          ("raw", Json.str raw)]⟩, true) := by
  simp [api_review, h1, h2]

/-- C6 witness: the raw text `"hello"` sanitizes to itself and is not
JSON, so the soft-fail body is returned with status 200. -/
theorem C6_nonjson_soft_fail_witness :
    pyStrip "x" ≠ "" ∧ parseJsonStr (clean_json_output "hello") = none ∧
    api_review (some (PyVal.str "x")) (Except.ok "hello") =
      Except.ok (⟨200,
        Json.obj [("summary", Json.str "Gemini returned non-JSON. Showing raw."),
          ("raw", Json.str "hello")]⟩, true) :=
  ⟨by decide, rfl, C6_nonjson_soft_fail "x" "hello" (by decide) rfl⟩

/-- C10: when the `code` field is present but not a string, the
`.strip()` call raises an `AttributeError` before the 400 check and
before the `try` block, so the handler produces neither the documented
400 body nor the documented 500 body but an escaping exception. -/
theorem C10_nonstring_code_raises (v : PyVal) (r : Except String String)
    (h : ∀ s, v ≠ PyVal.str s) :
    api_review (some v) r = Except.error "AttributeError: object has no attribute strip" := by
  cases v with
  | str s => exact absurd rfl (h s)
  | int n => rfl
  | list xs => rfl
  | dict fs => rfl

/-- C10 witness: a numeric `code` value escapes as an exception. -/
theorem C10_nonstring_code_raises_witness :
    api_review (some (PyVal.int 7)) (Except.ok "zz") =
      Except.error "AttributeError: object has no attribute strip" :=
  C10_nonstring_code_raises (PyVal.int 7) (Except.ok "zz") (fun s h => by cases h)

/-- C7: on the fenced input the leading fence with its language tag and
the trailing fence are stripped and both sanitizer variants produce
exactly the seven characters of the JSON object. -/
theorem C7_fence_roundtrip :
    clean_json_output "```json\n\x7b\"a\":1\x7d\n```" = "\x7b\"a\":1\x7d" ∧
    _clean_to_json_str "```json\n\x7b\"a\":1\x7d\n```" = some "\x7b\"a\":1\x7d" :=
  ⟨by decide, by decide⟩

/-- C8: on the already-clean input both variants return the input
unchanged, so the front-end sanitizer is idempotent there. -/
theorem C8_idempotent_on_clean :
    clean_json_output "\x7b\"a\":1\x7d" = "\x7b\"a\":1\x7d" ∧
    _clean_to_json_str "\x7b\"a\":1\x7d" = some "\x7b\"a\":1\x7d" ∧
    clean_json_output (clean_json_output "\x7b\"a\":1\x7d") =
      clean_json_output "\x7b\"a\":1\x7d" :=
  ⟨by decide, by decide, by decide⟩

/-- C9: whenever the client variant succeeds with a candidate, the
front-end variant returns exactly the same string. -/
theorem C9_variants_agree (s c : String) (h : _clean_to_json_str s = some c) :
    clean_json_output s = c := by
  rw [_clean_to_json_str] at h
  rw [clean_json_output]
  by_cases hs : s = ""
  · rw [if_pos hs] at h
    exact absurd h (by simp)
  · rw [if_neg hs] at h
    rw [if_neg hs]
    cases hf : findIdxCh (fenceClean s) lbrace with
    | none => rw [hf] at h; simp at h
    | some i =>
      cases hr : rfindIdxCh (fenceClean s) rbrace with
      | none => rw [hf, hr] at h; simp at h
      | some j =>
        rw [hf, hr] at h
        simp only [hf, hr]
        have h' : (if i < j then
            (if jsonValid (String.mk (sliceIncl (fenceClean s) i j)) = true then
              some (String.mk (sliceIncl (fenceClean s) i j)) else none)
          else none) = some c := h
        by_cases hij : i < j
        · rw [if_pos hij] at h'
          by_cases hv : jsonValid (String.mk (sliceIncl (fenceClean s) i j)) = true
          · rw [if_pos hv] at h'
            simpa using h'
          · rw [if_neg hv] at h'
            simp at h'
        · rw [if_neg hij] at h'
          simp at h'

/-- C9 witness: a concrete input on which the client variant succeeds
and the front-end variant agrees. -/
theorem C9_variants_agree_witness :
    _clean_to_json_str "\x7b\"b\":2\x7d" = some "\x7b\"b\":2\x7d" ∧
    clean_json_output "\x7b\"b\":2\x7d" = "\x7b\"b\":2\x7d" :=
  ⟨by decide, C9_variants_agree "\x7b\"b\":2\x7d" "\x7b\"b\":2\x7d" (by decide)⟩

/-- C3 counterexample: on the input `\x7d\x7b` (a `\x7d` before a
`\x7b`) the front-end variant `clean_json_output` does take the
inclusive slice — which is empty because the last closing brace precedes
the first opening brace — and returns `""` instead of leaving the text
`\x7d\x7b` unchanged as the claimed no-slice condition would require. -/
theorem C3_counterexample :
    clean_json_output "\x7d\x7b" = "" ∧ ("\x7d\x7b" : String) ≠ "" :=
  ⟨by decide, by decide⟩

/-- C3 amended: the client variant takes the slice as candidate only
when both braces exist and the last `\x7d` is strictly after the first
`\x7b` (it returns `none` otherwise), but the front-end variant takes
the inclusive slice whenever both braces exist, even when the last
`\x7d` precedes the first `\x7b` (in which case the slice is empty). -/
theorem C3_amended (s : String) (i j : Nat) (hs : s ≠ "")
    (hf : findIdxCh (fenceClean s) lbrace = some i)
    (hr : rfindIdxCh (fenceClean s) rbrace = some j) :
    clean_json_output s = String.mk (sliceIncl (fenceClean s) i j) ∧
    (¬i < j → _clean_to_json_str s = none) := by
  constructor
  · rw [clean_json_output, if_neg hs]
    simp only [hf, hr]
  · intro hij
    rw [_clean_to_json_str, if_neg hs]
    simp only [hf, hr]
    simp [hij]

/-- C3 amended witness: on `\x7d\x7b` the first `\x7b` is at index 1 and
the last `\x7d` at index 0, the front-end slices (to the empty string)
and the client variant returns `none`. -/
theorem C3_amended_witness :
    clean_json_output "\x7d\x7b" = String.mk (sliceIncl (fenceClean "\x7d\x7b") 1 0) ∧
    _clean_to_json_str "\x7d\x7b" = none := by
  have h := C3_amended "\x7d\x7b" 1 0 (by decide) (by decide) (by decide)
  exact ⟨h.1, h.2 (by decide)⟩

/-- C4 counterexample: on the whitespace-only input `"   "` the
front-end variant returns `""`, not the claimed literal `\x7b\x7d`. -/
theorem C4_counterexample : clean_json_output "   " ≠ "\x7b\x7d" := by decide

/-- C4 amended: both variants test emptiness before trimming. The
front-end variant returns the literal `\x7b\x7d` only for the genuinely
empty input and returns the empty string on whitespace-only non-empty
input; the client variant returns `none` on every input that is empty or
whitespace-only. -/
theorem C4_amended :
    clean_json_output "" = "\x7b\x7d" ∧
    (∀ s : String, s ≠ "" → pyStrip s = "" → clean_json_output s = "") ∧
    (∀ s : String, pyStrip s = "" → _clean_to_json_str s = none) := by
  refine ⟨rfl, ?_, ?_⟩
  · intro s hs h
    have hl : pyStripList s.data = [] := by
      have := congrArg String.data h
      simpa [pyStrip] using this
    rw [clean_json_output, if_neg hs]
    simp [fenceClean, hl, stripLeadingFence, stripTrailingFence, findIdxCh, rfindIdxCh]
  · intro s h
    by_cases hs : s = ""
    · subst hs; rfl
    · have hl : pyStripList s.data = [] := by
        have := congrArg String.data h
        simpa [pyStrip] using this
      rw [_clean_to_json_str, if_neg hs]
      simp [fenceClean, hl, stripLeadingFence, stripTrailingFence, findIdxCh, rfindIdxCh]

/-- C4 amended witness: the whitespace-only input `"   "` is non-empty,
strips to the empty string, and the two variants return `""` and `none`
respectively. -/
theorem C4_amended_witness :
    ("   " : String) ≠ "" ∧ pyStrip "   " = "" ∧
    clean_json_output "   " = "" ∧ _clean_to_json_str "   " = none :=
  ⟨by decide, by decide, C4_amended.2.1 "   " (by decide) (by decide),
    C4_amended.2.2 "   " (by decide)⟩
